import Mathlib

/-!
Shallow embedding of the b0t workflow engine's validation, generation and
run-endpoint logic, together with spec-modelled components (circuit breaker,
variable resolver, queue submission) whose implementations live outside the
available sources.  Definitions are transcribed from:

* `src/lib/workflows/llm-generator.ts` (`validateWorkflow`)
* `src/app/api/workflows/generate/route.ts` (`POST`)
* the `[id]/run` route (`POST`)
* the two GoHighLevel module files (resilience wiring tables)
-/

namespace B0t

/-- The character `{` (code 123), named so that brace characters never appear
as literal text. -/
def lbrace : Char := Char.ofNat 123

/-- The character `}` (code 125). -/
def rbrace : Char := Char.ofNat 125

/-- JavaScript `String.prototype.split` with a single-character separator:
`"a..b".split('.') = ["a","","b"]`, `"".split('.') = [""]`. -/
def splitOnChar (sep : Char) : List Char → List (List Char)
  | [] => [[]]
  | c :: rest =>
    match splitOnChar sep rest with
    | [] => [[c]]
    | g :: gs => if c = sep then [] :: g :: gs else (c :: g) :: gs

/-- Global replacement of the two-character substrings `{{` and `}}` by the
empty string, as performed by `ref.replace(/\x7b\x7b|\x7d\x7d/g, '')` in
`validateWorkflow`. -/
def stripBraces : List Char → List Char
  | [] => []
  | [c] => [c]
  | c :: d :: rest2 =>
    if (c = lbrace ∧ d = lbrace) ∨ (c = rbrace ∧ d = rbrace) then
      stripBraces rest2
    else
      c :: stripBraces (d :: rest2)

/-- After an opening `{{`, scan the maximal run of characters different from
`}` (the greedy `[^\x7d]+` of the marker regex) and require an immediately
following `}}`.  Returns the run and the remainder after the closing braces. -/
def scanInner : List Char → Option (List Char × List Char)
  | [] => none
  | c :: rest =>
    if c = rbrace then
      match rest with
      | d :: rest2 => if d = rbrace then some ([], rest2) else none
      | [] => none
    else
      match scanInner rest with
      | some (inner, rem) => some (c :: inner, rem)
      | none => none

theorem scanInner_rem_lt (l : List Char) (inner rem : List Char)
    (h : scanInner l = some (inner, rem)) : rem.length < l.length := by
  induction l generalizing inner rem with
  | nil => simp [scanInner] at h
  | cons c rest ih =>
    simp only [scanInner] at h
    by_cases hc : c = rbrace
    · simp only [hc, if_pos rfl] at h
      match rest, h with
      | d :: rest2, h =>
        by_cases hd : d = rbrace
        · simp [hd] at h
          simp [← h.2]
          omega
        · simp [hd] at h
    · simp only [if_neg hc] at h
      match hs : scanInner rest with
      | some (inner', rem') =>
        rw [hs] at h
        simp at h
        have := ih inner' rem' hs
        simp [← h.2]
        omega
      | none => rw [hs] at h; simp at h

/-- Marker scan worker.  `fuel` is a structural-recursion bound; every
recursive call strictly shortens the scanned list, so `fuel = l.length`
(as supplied by `extractMarkers`) can never run out before the list does. -/
def extractMarkersAux : Nat → List Char → List String
  | _, [] => []
  | 0, _ => []
  | fuel + 1, c :: rest =>
    if c = lbrace then
      match rest with
      | [] => []
      | c2 :: rest2 =>
        if c2 = lbrace then
          match scanInner rest2 with
          | some (inner, rem) =>
            if inner.isEmpty then extractMarkersAux fuel (c2 :: rest2)
            else
              String.mk (lbrace :: lbrace :: (inner ++ rbrace :: rbrace :: [])) ::
                extractMarkersAux fuel rem
          | none => extractMarkersAux fuel (c2 :: rest2)
        else extractMarkersAux fuel (c2 :: rest2)
    else extractMarkersAux fuel rest

/-- All non-overlapping matches of the marker regex
`/\x7b\x7b([^\x7d]+)\x7d\x7d/g` in a character list, left to right; on a
failed attempt the scan resumes one character after the attempt's start,
exactly as a regex engine does. -/
def extractMarkers (l : List Char) : List String :=
  extractMarkersAux l.length l

/-- Root-name extraction of `validateWorkflow`:
`ref.replace(/\x7b\x7b|\x7d\x7d/g, '').split('.')[0].split('[')[0]`. -/
def rootOf (ref : String) : String :=
  String.mk (((stripBraces ref.data).takeWhile (fun c => c != '.')).takeWhile
    (fun c => c != '['))

/-- JSON-like parameter values (the loosely typed records that step outputs
and trigger data range over). -/
inductive JValue where
  | str (s : String)
  | num (n : Int)
  | bool (b : Bool)
  | null
  | arr (elems : List JValue)
  | obj (fields : List (String × JValue))

/-- A workflow step as produced by the generator's zod schema.  The step's
parameter record is carried in its `JSON.stringify` serialization: the sole
use the validator makes of `step.params` is
`const paramString = JSON.stringify(step.params)`. -/
structure WStep where
  name : String
  module : String
  params : String
  outputAs : Option String := none
  condition : Option String := none
deriving DecidableEq

/-- Trigger descriptor of a workflow. -/
inductive TriggerType where
  | manual | cron | webhook | chat
deriving DecidableEq

structure WTrigger where
  ttype : TriggerType
  schedule : Option String := none
  webhookPath : Option String := none
deriving DecidableEq

structure OutputDisplayColumn where
  key : String
  label : String
  ctype : String
deriving DecidableEq

structure OutputDisplay where
  dtype : String
  columns : Option (List OutputDisplayColumn) := none
deriving DecidableEq

structure WConfig where
  steps : List WStep
  outputDisplay : Option OutputDisplay := none
deriving DecidableEq

/-- A generated workflow (`GeneratedWorkflow` in `llm-generator.ts`). -/
structure GeneratedWorkflow where
  name : String
  description : String
  trigger : WTrigger
  config : WConfig
  requiredCredentials : List String
deriving DecidableEq

/-- The process-wide module registry: category name to module name to the
registered function names of that module. -/
abbrev Registry := List (String × List (String × List String))

/-- The first three dot-separated components of a step's module path, as
destructured by `const [category, moduleName, functionName] = step.module.split('.')`;
further components are discarded by the destructuring, and a missing
component becomes the empty (falsy) string. -/
def pathComponents (step : WStep) : String × String × String :=
  let parts := splitOnChar '.' step.module.data
  (String.mk (parts.getD 0 []), String.mk (parts.getD 1 []),
    String.mk (parts.getD 2 []))

/-- The module-path checks of `validateWorkflow` for one step: error when
any of the three destructured components is falsy (empty/missing), then
look each level up in the registry. -/
def moduleCheckError (registry : Registry) (step : WStep) : Option String :=
  let category := (pathComponents step).1
  let moduleName := (pathComponents step).2.1
  let functionName := (pathComponents step).2.2
  if category = "" ∨ moduleName = "" ∨ functionName = "" then
    some ("Step \"" ++ step.name ++ "\": Invalid module path format: " ++ step.module)
  else
    match registry.lookup category with
    | none => some ("Step \"" ++ step.name ++ "\": Unknown category: " ++ category)
    | some mods =>
      match mods.lookup moduleName with
      | none =>
        some ("Step \"" ++ step.name ++ "\": Unknown module: " ++
          category ++ "." ++ moduleName)
      | some funcs =>
        if funcs.contains functionName then none
        else some ("Step \"" ++ step.name ++ "\": Unknown function: " ++ step.module)

/-- The warning text pushed for an undefined variable root. -/
def warnMsg (stepName varName : String) : String :=
  "Step \"" ++ stepName ++ "\": Variable \x7b\x7b" ++ varName ++
    "\x7d\x7d may not be defined yet"

/-- The reference warnings of one step at position `i`: every `/\x7b\x7b([^\x7d]+)\x7d\x7d/g`
match in `JSON.stringify(step.params)` whose root name is not the `outputAs`
of a step strictly before position `i` and is not `input`.  (JS `indexOf`
compares object identity, so `steps.indexOf(step)` is the step's position.) -/
def refWarnings (steps : List WStep) (i : Nat) (step : WStep) : List String :=
  (extractMarkers step.params.data).filterMap fun ref =>
    let varName := rootOf ref
    if !((steps.take i).any fun s => s.outputAs == some varName) && varName != "input" then
      some (warnMsg step.name varName)
    else none

/-- One loop iteration of `validateWorkflow`: a failed module check pushes
its error and `continue`s (the params are never scanned); otherwise the
step contributes its reference warnings. -/
def stepPair (registry : Registry) (steps : List WStep) (i : Nat) (step : WStep) :
    List String × List String :=
  match moduleCheckError registry step with
  | some e => ([e], [])
  | none => ([], refWarnings steps i step)

/-- The full loop over the steps, carrying the position index. -/
def validateSteps (registry : Registry) (allSteps : List WStep) :
    Nat → List WStep → List String × List String
  | _, [] => ([], [])
  | i, s :: rest =>
    let p := stepPair registry allSteps i s
    let q := validateSteps registry allSteps (i + 1) rest
    (p.1 ++ q.1, p.2 ++ q.2)

structure ValidationResult where
  valid : Bool
  errors : List String
  warnings : List String
deriving DecidableEq

/-- `validateWorkflow` of `llm-generator.ts`: collect errors and warnings
over all steps; `valid` iff the error list is empty. -/
def validateWorkflow (registry : Registry) (workflow : GeneratedWorkflow) :
    ValidationResult :=
  let p := validateSteps registry workflow.config.steps 0 workflow.config.steps
  { valid := p.1.length == 0, errors := p.1, warnings := p.2 }

/-- The predicate the registry checks of `moduleCheckError` actually test:
the first three dot-separated components resolve to a registered category,
module and function.  Components after the third play no part. -/
def registryHasPath (registry : Registry) (category moduleName functionName : String) :
    Bool :=
  match registry.lookup category with
  | none => false
  | some mods =>
    match mods.lookup moduleName with
    | none => false
    | some funcs => funcs.contains functionName

/-- A workflow row as inserted by `POST /api/workflows/generate`. -/
structure SavedWorkflow where
  userId : String
  name : String
  description : String
  trigger : WTrigger
  config : WConfig
  status : String
  requiredCredentials : List String
deriving DecidableEq

/-- Responses of `POST /api/workflows/generate` past generation: HTTP 400
carrying the workflow plus its validation result, or HTTP 200 carrying
them plus the saved row when `saveImmediately` was set. -/
inductive GenerateResponse where
  | validationFailed (workflow : GeneratedWorkflow) (validation : ValidationResult)
  | ok (workflow : GeneratedWorkflow) (validation : ValidationResult)
      (saved : Option SavedWorkflow)

/-- The decision logic of `POST /api/workflows/generate` from the point the
LLM produced `workflow`: validate, reject on `!validation.valid`, otherwise
optionally insert with `status: 'draft'`. -/
def generatePost (registry : Registry) (userId : String)
    (workflow : GeneratedWorkflow) (saveImmediately : Bool) : GenerateResponse :=
  let validation := validateWorkflow registry workflow
  if !validation.valid then
    .validationFailed workflow validation
  else
    .ok workflow validation
      (if saveImmediately then
        some { userId, name := workflow.name, description := workflow.description,
               trigger := workflow.trigger, config := workflow.config,
               status := "draft", requiredCredentials := workflow.requiredCredentials }
       else none)

/-- The database row a generate response persisted, if any. -/
def GenerateResponse.savedRow : GenerateResponse → Option SavedWorkflow
  | .ok _ _ s => s
  | .validationFailed _ _ => none

/-- Result shape of `executeWorkflow`. -/
structure RunResult where
  success : Bool
  output : Option JValue := none
  error : Option String := none
  errorStep : Option String := none

/-- JSON body of a `POST /api/workflows/[id]/run` response; absent JSON
fields are `none`. -/
structure RunRespBody where
  success : Bool
  queued : Option Bool := none
  jobId : Option String := none
  output : Option JValue := none
  error : Option String := none
  errorStep : Option String := none
  message : Option String := none

structure RunResponse where
  status : Nat
  body : RunRespBody

/-- What one request to the run endpoint produced: the HTTP response, and
whether `executeWorkflow` was invoked inline. -/
structure RunPostOutcome where
  response : RunResponse
  inlineExecuted : Bool

/-- The branching of `POST /api/workflows/[id]/run` after auth and rate
limiting.  `queueOutcome` is what `queueWorkflowExecution` returns (or
throws); `execOutcome` is what `executeWorkflow` returns (or throws); the
`catch` block maps a thrown message to a 500 body with only `error`. -/
def runPost (queueAvailable : Bool)
    (queueOutcome : Except String (String × Bool))
    (execOutcome : Except String RunResult) : RunPostOutcome :=
  if queueAvailable then
    match queueOutcome with
    | .ok result =>
      let body : RunRespBody :=
        { success := true, queued := some result.2, jobId := some result.1,
          message := some "Workflow queued for execution" }
      { response := { status := 200, body := body }, inlineExecuted := false }
    | .error e =>
      { response := { status := 500, body := { success := false, error := some e } },
        inlineExecuted := false }
  else
    match execOutcome with
    | .ok result =>
      if result.success then
        let body : RunRespBody :=
          { success := true, output := result.output, queued := some false }
        { response := { status := 200, body := body }, inlineExecuted := true }
      else
        let body : RunRespBody :=
          { success := false, error := result.error, errorStep := result.errorStep }
        { response := { status := 500, body := body }, inlineExecuted := true }
    | .error e =>
      { response := { status := 500, body := { success := false, error := some e } },
        inlineExecuted := true }

/-- Modelled from the spec: the durable queue submission
(`queueWorkflowExecution` in `@/lib/workflows/workflow-queue`, not among the
available sources).  Its contract is
`submit(...) -> \x7bjobId, queued: true\x7d` whenever the durable backend is
reachable. -/
def queueSubmitSpec (jobId : String) : String × Bool := (jobId, true)

/-- One layer of an exported GoHighLevel module function's call pipeline,
outermost first. -/
inductive CallLayer where
  | rateLimit           -- withRateLimit(..., ghlRateLimiter)
  | breaker (timeoutMs : Nat)  -- createCircuitBreaker(..., \x7b timeout \x7d).fire
  | request             -- makeGHLRequest, i.e. the raw fetch
deriving DecidableEq

/-- An exported module function together with the wrappers its definition
routes the API call through. -/
structure GhlExport where
  fname : String
  layers : List CallLayer
deriving DecidableEq

def usesRateLimit (e : GhlExport) : Bool :=
  e.layers.contains .rateLimit

def usesBreaker (e : GhlExport) : Bool :=
  e.layers.any fun l => match l with | .breaker _ => true | _ => false

/-- A call both rate limited on the shared `ghlRateLimiter` and protected by
a circuit breaker. -/
def fullyWrapped (e : GhlExport) : Bool :=
  usesRateLimit e && usesBreaker e

/-- Export table of the `rest.gohighlevel.com/v1` GoHighLevel module,
transcribed from its definitions: every `xxxInternal` is wrapped as
`withRateLimit(... createCircuitBreaker(xxxInternal, \x7btimeout: 10000\x7d).fire ..., ghlRateLimiter)`,
except `apiRequest`, which forwards straight to `makeGHLRequest`. -/
def ghlRestExports : List GhlExport :=
  { fname := "apiRequest", layers := [.request] } ::
  (["createContact", "getContact", "updateContact", "searchContacts",
    "deleteContact", "createOpportunity", "updateOpportunity",
    "listOpportunities", "sendSMS", "sendEmail", "createAppointment",
    "listAppointments", "getTags", "addTagToContact", "removeTagFromContact",
    "updateCustomField", "triggerWorkflow"].map fun n =>
      { fname := n, layers := [.rateLimit, .breaker 10000, .request] })

/-- Export table of the `services.leadconnectorhq.com` GoHighLevel module:
only `createContact` is wrapped (breaker timeout 15000 under the shared rate
limiter); every other exported function calls `makeGHLRequest` directly. -/
def ghlLeadConnectorExports : List GhlExport :=
  { fname := "createContact", layers := [.rateLimit, .breaker 15000, .request] } ::
  (["updateContact", "getContact", "getContactByEmail", "searchContacts",
    "deleteContact", "addTagsToContact", "removeTagsFromContact",
    "createOpportunity", "updateOpportunity", "getOpportunity",
    "searchOpportunities", "deleteOpportunity", "createAppointment",
    "updateAppointment", "getAppointment", "deleteAppointment", "createTask",
    "updateTask", "getTask", "deleteTask", "completeTask", "createNote",
    "getNote", "getContactNotes", "deleteNote", "sendSMS", "sendEmail",
    "getContactConversations", "getConversationMessages"].map fun n =>
      { fname := n, layers := [.request] })

/-- Circuit-breaker parameters: trip threshold `F`, cooldown `T`, per-call
timeout. -/
structure BreakerConfig where
  failureThreshold : Nat
  cooldownMs : Nat
  timeoutMs : Nat

/-- Breaker state: closed with a consecutive-failure counter, or open since
`openedAt`. -/
inductive BreakerState where
  | closed (consecutiveFailures : Nat)
  | opened (openedAt : Nat)
deriving DecidableEq

/-- How the wrapped module body behaves if invoked. -/
inductive CallBehavior where
  | succeeds | fails | timesOut
deriving DecidableEq

/-- What the caller of the wrapped function observes. -/
inductive CallOutcome where
  | ok          -- body invoked and returned
  | failed      -- body invoked and threw (ModuleExecutionError)
  | timedOut    -- body invoked, exceeded the timeout (TimeoutError)
  | circuitOpen -- rejected with CircuitOpenError, body NOT invoked
deriving DecidableEq

/-- Whether the outcome corresponds to the module body having been invoked. -/
def CallOutcome.invoked : CallOutcome → Bool
  | .circuitOpen => false
  | _ => true

/-- Timeouts count as failures for breaker purposes. -/
def CallBehavior.isFailure : CallBehavior → Bool
  | .succeeds => false
  | .fails => true
  | .timesOut => true

/-- The outcome surfaced when the body is actually invoked. -/
def CallBehavior.outcome : CallBehavior → CallOutcome
  | .succeeds => .ok
  | .fails => .failed
  | .timesOut => .timedOut

/-- Modelled from the spec: `createCircuitBreaker` (in `@/lib/resilience`,
not among the available sources).  One call through the breaker at clock
time `now`: a closed breaker invokes the body, resetting the counter on
success and opening after the `F`-th consecutive failure (timeouts
included); an open breaker rejects with `CircuitOpenError` until the
cooldown `T` elapses, then admits one half-open trial whose success closes
the breaker and whose failure reopens it from `now`. -/
def breakerCall (cfg : BreakerConfig) (s : BreakerState) (now : Nat)
    (b : CallBehavior) : CallOutcome × BreakerState :=
  match s with
  | .closed f =>
    if b.isFailure then
      if f + 1 ≥ cfg.failureThreshold then (b.outcome, .opened now)
      else (b.outcome, .closed (f + 1))
    else (b.outcome, .closed 0)
  | .opened since =>
    if now < since + cfg.cooldownMs then (.circuitOpen, .opened since)
    else
      if b.isFailure then (b.outcome, .opened now)
      else (b.outcome, .closed 0)

/-- Final breaker state after a sequence of `(time, behavior)` calls. -/
def breakerRun (cfg : BreakerConfig) (s : BreakerState) :
    List (Nat × CallBehavior) → BreakerState
  | [] => s
  | c :: rest => breakerRun cfg (breakerCall cfg s c.1 c.2).2 rest

/-- One segment of a variable expression: `.key` access or `[index]`. -/
inductive Seg where
  | key (k : String)
  | idx (i : Nat)
deriving DecidableEq

/-- Walk a value along a segment path, `none` as soon as a segment is
missing. -/
def getPath : JValue → List Seg → Option JValue
  | v, [] => some v
  | .obj fs, .key k :: rest =>
    match fs.lookup k with
    | some u => getPath u rest
    | none => none
  | .arr xs, .idx i :: rest =>
    match xs.get? i with
    | some u => getPath u rest
    | none => none
  | _, _ => none

/-- The runtime resolution error: the full `\x7b\x7b...\x7d\x7d` expression text and
the step whose parameters referenced it. -/
structure MissingVariableError where
  expression : String
  stepName : String

/-- Modelled from the spec: the Variable Resolver's evaluation of one marker
(the resolver module is not among the available sources).  `expr` is the
marker's full dotted-path text and `segs` its parsed segments; the output
bag maps root names to step outputs.  A fully present path yields the nested
value; any missing segment raises `MissingVariableError` naming the
expression and the referencing step — never `undefined`. -/
def resolveExpr (bag : List (String × JValue)) (stepName expr : String)
    (segs : List Seg) : Except MissingVariableError JValue :=
  match getPath (.obj bag) segs with
  | some v => .ok v
  | none => .error { expression := expr, stepName := stepName }

/-- Specification-side characterisation of "the dotted path is fully present
and leads to `v`", written as an inductive relation independent of
`getPath`. -/
inductive PathLeadsTo : JValue → List Seg → JValue → Prop where
  | nil (v : JValue) : PathLeadsTo v [] v
  | key {fs : List (String × JValue)} {k : String} {u v : JValue} {rest : List Seg}
      (hf : fs.lookup k = some u) (hrest : PathLeadsTo u rest v) :
      PathLeadsTo (.obj fs) (.key k :: rest) v
  | idx {xs : List JValue} {i : Nat} {u v : JValue} {rest : List Seg}
      (hx : xs.get? i = some u) (hrest : PathLeadsTo u rest v) :
      PathLeadsTo (.arr xs) (.idx i :: rest) v

/-! ### Concrete instances used by counterexamples and witnesses -/

/-- A small registry of the shape `moduleRegistry` has at process start. -/
def demoRegistry : Registry :=
  [("ai", [("aiSdk", ["chat", "complete"])]),
   ("crm", [("gohighlevel", ["createContact", "sendSMS"])])]

/-- `JSON.stringify` of an empty parameter record. -/
def jempty : String := "\x7b\x7d"

/-- `JSON.stringify` of a record with a single reference to `ghost.x`. -/
def jghost : String := "\x7b\"p\":\"\x7b\x7bghost.x\x7d\x7d\"\x7d"

def mkWorkflow (nm : String) (steps : List WStep) : GeneratedWorkflow :=
  { name := nm, description := "", trigger := { ttype := .manual },
    config := { steps := steps }, requiredCredentials := [] }

def stepDupA : WStep :=
  { name := "a", module := "ai.aiSdk.chat", params := jempty, outputAs := some "x" }

def stepDupB : WStep :=
  { name := "b", module := "ai.aiSdk.chat", params := jempty, outputAs := some "x" }

/-- Two steps declaring the same `outputAs`, both with registered modules. -/
def wfDup : GeneratedWorkflow := mkWorkflow "dup" [stepDupA, stepDupB]

def stepFour : WStep :=
  { name := "a", module := "ai.aiSdk.chat.extra", params := jempty }

/-- One step whose module path has four dot-separated segments, the first
three of which resolve in the registry. -/
def wfFour : GeneratedWorkflow := mkWorkflow "four" [stepFour]

def stepBadModRef : WStep :=
  { name := "a", module := "nope", params := jghost }

/-- One step with an unresolvable module path whose params reference the
undefined root `ghost`. -/
def wfBadModRef : GeneratedWorkflow := mkWorkflow "badmod" [stepBadModRef]

def stepGhostRef : WStep :=
  { name := "a", module := "ai.aiSdk.chat", params := jghost }

/-- One step with a registered module whose params reference the undefined
root `ghost`. -/
def wfGhostRef : GeneratedWorkflow := mkWorkflow "ghost" [stepGhostRef]

end B0t

namespace B0t

/-! ### Helper lemmas about the validation loop -/

theorem validateSteps_errors_nil (registry : Registry) (allSteps : List WStep) :
    ∀ (rest : List WStep) (i : Nat),
      (∀ s ∈ rest, moduleCheckError registry s = none) →
      (validateSteps registry allSteps i rest).1 = [] := by
  intro rest
  induction rest with
  | nil => intro i _; rfl
  | cons s tl ih =>
    intro i h
    have hs := h s (by simp)
    have htl : ∀ x ∈ tl, moduleCheckError registry x = none := by
      intro x hx
      exact h x (by simp [hx])
    simp [validateSteps, stepPair, hs, ih (i + 1) htl]

theorem mem_validateSteps_warnings (registry : Registry) (allSteps : List WStep) :
    ∀ (rest : List WStep) (i j : Nat) (step : WStep) (w : String),
      rest.get? j = some step →
      w ∈ (stepPair registry allSteps (i + j) step).2 →
      w ∈ (validateSteps registry allSteps i rest).2 := by
  intro rest
  induction rest with
  | nil => intro i j step w h; simp at h
  | cons s tl ih =>
    intro i j step w hget hmem
    cases j with
    | zero =>
      simp at hget
      subst hget
      simp only [validateSteps, List.mem_append]
      exact Or.inl (by simpa using hmem)
    | succ j =>
      rw [List.get?_cons_succ] at hget
      have e : i + (j + 1) = (i + 1) + j := by omega
      rw [e] at hmem
      simp only [validateSteps, List.mem_append]
      exact Or.inr (ih (i + 1) j step w hget hmem)

theorem mem_validateSteps_errors (registry : Registry) (allSteps : List WStep) :
    ∀ (rest : List WStep) (i j : Nat) (step : WStep) (e : String),
      rest.get? j = some step →
      e ∈ (stepPair registry allSteps (i + j) step).1 →
      e ∈ (validateSteps registry allSteps i rest).1 := by
  intro rest
  induction rest with
  | nil => intro i j step e h; simp at h
  | cons s tl ih =>
    intro i j step e hget hmem
    cases j with
    | zero =>
      simp at hget
      subst hget
      simp only [validateSteps, List.mem_append]
      exact Or.inl (by simpa using hmem)
    | succ j =>
      rw [List.get?_cons_succ] at hget
      have heq : i + (j + 1) = (i + 1) + j := by omega
      rw [heq] at hmem
      simp only [validateSteps, List.mem_append]
      exact Or.inr (ih (i + 1) j step e hget hmem)

theorem warnMsg_mem_stepPair (registry : Registry) (steps : List WStep) (i : Nat)
    (step : WStep) (ref : String)
    (hmod : moduleCheckError registry step = none)
    (href : ref ∈ extractMarkers step.params.data)
    (hroot : rootOf ref ≠ "input")
    (hout : ∀ s ∈ steps.take i, s.outputAs ≠ some (rootOf ref)) :
    warnMsg step.name (rootOf ref) ∈ (stepPair registry steps i step).2 := by
  simp only [stepPair, hmod]
  simp only [refWarnings, List.mem_filterMap]
  refine ⟨ref, href, ?_⟩
  have hany : ((steps.take i).any fun s => s.outputAs == some (rootOf ref)) = false := by
    simp only [List.any_eq_false]
    intro x hx
    simp only [beq_iff_eq]
    exact hout x hx
  simp [hany, hroot]

theorem validateWorkflow_valid_iff (registry : Registry) (w : GeneratedWorkflow) :
    (validateWorkflow registry w).valid = true ↔
      (validateWorkflow registry w).errors = [] := by
  simp [validateWorkflow, List.length_eq_zero]

end B0t

namespace B0t

/-- C1 (counterexample): a definition whose two steps both declare
`outputAs: "x"` and whose module paths are registered produces no validation
error at all — `validateWorkflow` has no duplicate-`outputAs` check, so the
duplicate definition is not rejected. -/
theorem c1_counterexample :
    stepDupA.outputAs = some "x" ∧ stepDupB.outputAs = some "x" ∧
    wfDup.config.steps = [stepDupA, stepDupB] ∧
    (validateWorkflow demoRegistry wfDup).errors = [] ∧
    (validateWorkflow demoRegistry wfDup).valid = true := by
  refine ⟨rfl, rfl, rfl, ?_, ?_⟩ <;> decide

/-- C1 (amended): `validateWorkflow`'s error list comes only from the
per-step module-path checks; a workflow all of whose steps pass those checks
validates with an empty error list and `valid = true`, regardless of any
duplicated `outputAs` names among its steps. -/
theorem c1_amended_no_duplicate_check (registry : Registry) (w : GeneratedWorkflow)
    (h : ∀ s ∈ w.config.steps, moduleCheckError registry s = none) :
    (validateWorkflow registry w).errors = [] ∧
      (validateWorkflow registry w).valid = true := by
  have he : (validateWorkflow registry w).errors = [] := by
    simpa [validateWorkflow] using
      validateSteps_errors_nil registry w.config.steps w.config.steps 0 h
  exact ⟨he, (validateWorkflow_valid_iff registry w).mpr he⟩

/-- C1 (witness): the amended theorem applied to the concrete
duplicate-`outputAs` workflow. -/
theorem c1_witness :
    ((validateWorkflow demoRegistry wfDup).errors = [] ∧
      (validateWorkflow demoRegistry wfDup).valid = true) ∧
    stepDupA.outputAs = stepDupB.outputAs := by
  exact ⟨c1_amended_no_duplicate_check demoRegistry wfDup (by decide), rfl⟩

/-- C2 (counterexample): the module path `ai.aiSdk.chat.extra` has four
dot-separated segments — not exactly three — yet `validateWorkflow` reports
no error for it, because the destructuring keeps only the first three
segments and `ai.aiSdk.chat` is registered. -/
theorem c2_counterexample :
    (splitOnChar '.' stepFour.module.data).length = 4 ∧
    (validateWorkflow demoRegistry wfFour).errors = [] ∧
    (validateWorkflow demoRegistry wfFour).valid = true := by
  refine ⟨?_, ?_, ?_⟩ <;> decide

/-- C2 (amended): `validateWorkflow` reports a module-path error for a step
iff the first three components of `step.module.split('.')` are not all
non-empty or do not resolve to a registered category, module and function;
components past the third are ignored, so paths with extra trailing
segments pass whenever their first three resolve. -/
theorem c2_amended_module_check_iff (registry : Registry) (step : WStep) :
    moduleCheckError registry step = none ↔
      ((pathComponents step).1 ≠ "" ∧ (pathComponents step).2.1 ≠ "" ∧
        (pathComponents step).2.2 ≠ "" ∧
        registryHasPath registry (pathComponents step).1 (pathComponents step).2.1
          (pathComponents step).2.2 = true) := by
  rcases hpc : pathComponents step with ⟨c, m, f⟩
  simp only [moduleCheckError, registryHasPath, hpc]
  by_cases hc : c = ""
  · simp [hc]
  · by_cases hm : m = ""
    · simp [hc, hm]
    · by_cases hf : f = ""
      · simp [hc, hm, hf]
      · simp only [hc, hm, hf, or_self, or_false, if_false, ne_eq,
          not_false_iff, true_and]
        cases hcat : List.lookup c registry with
        | none => simp
        | some mods =>
          cases hmod : List.lookup m mods with
          | none => simp [hmod]
          | some funcs =>
            by_cases hfn : funcs.contains f
            · simp [hmod, hfn]
            · simp [hmod, hfn]

end B0t

namespace B0t

/-- C3 (counterexample): the reference `\x7b\x7bghost.x\x7d\x7d` sits in the
params of the first step, its root `ghost` is neither `input` nor any
earlier step's `outputAs`, yet `validateWorkflow` appends no warning for it,
because the step's module path fails the registry checks and the loop
`continue`s before scanning params. -/
theorem c3_counterexample :
    wfBadModRef.config.steps.get? 0 = some stepBadModRef ∧
    "\x7b\x7bghost.x\x7d\x7d" ∈ extractMarkers stepBadModRef.params.data ∧
    rootOf "\x7b\x7bghost.x\x7d\x7d" = "ghost" ∧
    wfBadModRef.config.steps.take 0 = [] ∧
    (validateWorkflow demoRegistry wfBadModRef).warnings = [] := by
  refine ⟨rfl, ?_, ?_, rfl, ?_⟩ <;> decide

/-- C3 (amended): for every step whose module path passes the registry
checks, every params reference whose root is neither `input` nor an earlier
step's `outputAs` yields its warning in the result, and validity is
determined by the error list alone, never by warnings. -/
theorem c3_amended_warning_for_undefined_root (registry : Registry)
    (w : GeneratedWorkflow) (i : Nat) (step : WStep) (ref : String)
    (hstep : w.config.steps.get? i = some step)
    (hmod : moduleCheckError registry step = none)
    (href : ref ∈ extractMarkers step.params.data)
    (hroot : rootOf ref ≠ "input")
    (hout : ∀ s ∈ w.config.steps.take i, s.outputAs ≠ some (rootOf ref)) :
    warnMsg step.name (rootOf ref) ∈ (validateWorkflow registry w).warnings ∧
      ((validateWorkflow registry w).valid = true ↔
        (validateWorkflow registry w).errors = []) := by
  constructor
  · have h1 := warnMsg_mem_stepPair registry w.config.steps i step ref hmod href
      hroot hout
    have h2 := mem_validateSteps_warnings registry w.config.steps w.config.steps
      0 i step _ hstep (by simpa using h1)
    simpa [validateWorkflow] using h2
  · exact validateWorkflow_valid_iff registry w

/-- C3 (witness): the amended theorem applied to a step with a registered
module referencing the undefined root `ghost`. -/
theorem c3_witness :
    warnMsg stepGhostRef.name (rootOf "\x7b\x7bghost.x\x7d\x7d") ∈
      (validateWorkflow demoRegistry wfGhostRef).warnings ∧
      ((validateWorkflow demoRegistry wfGhostRef).valid = true ↔
        (validateWorkflow demoRegistry wfGhostRef).errors = []) :=
  c3_amended_warning_for_undefined_root demoRegistry wfGhostRef 0 stepGhostRef
    "\x7b\x7bghost.x\x7d\x7d" (by decide) (by decide) (by decide) (by decide)
    (by decide)

/-- C10: once a step's module path fails the format or registry checks, the
step contributes exactly its one error and no warnings — its params are
never scanned for variable references — and that error reaches the overall
error list. -/
theorem c10_invalid_module_short_circuits (registry : Registry)
    (w : GeneratedWorkflow) (i : Nat) (step : WStep) (e : String)
    (hstep : w.config.steps.get? i = some step)
    (hmod : moduleCheckError registry step = some e) :
    stepPair registry w.config.steps i step = ([e], []) ∧
      e ∈ (validateWorkflow registry w).errors := by
  have hp : stepPair registry w.config.steps i step = ([e], []) := by
    simp [stepPair, hmod]
  refine ⟨hp, ?_⟩
  have h2 := mem_validateSteps_errors registry w.config.steps w.config.steps
    0 i step e hstep (by simp [hp])
  simpa [validateWorkflow] using h2

/-- C10 (witness): the theorem applied to the step with module path `nope`,
whose params reference `ghost` yet produce no warning. -/
theorem c10_witness :
    stepPair demoRegistry wfBadModRef.config.steps 0 stepBadModRef =
      (["Step \"a\": Invalid module path format: nope"], []) ∧
    "Step \"a\": Invalid module path format: nope" ∈
      (validateWorkflow demoRegistry wfBadModRef).errors :=
  c10_invalid_module_short_circuits demoRegistry wfBadModRef 0 stepBadModRef
    "Step \"a\": Invalid module path format: nope" (by decide) (by decide)

end B0t

namespace B0t

/-- C7: a generated workflow is persisted iff its validation reported no
errors and saving was requested; a workflow with errors is answered with
`validationFailed` carrying the validation result and nothing is saved;
warnings play no part in the decision; and every saved row carries
status `draft`. -/
theorem c7_generate_saves_only_valid_drafts (registry : Registry)
    (userId : String) (w : GeneratedWorkflow) (save : Bool) :
    ((generatePost registry userId w save).savedRow ≠ none ↔
      ((validateWorkflow registry w).errors = [] ∧ save = true)) ∧
    ((validateWorkflow registry w).errors ≠ [] →
      generatePost registry userId w save =
        .validationFailed w (validateWorkflow registry w)) ∧
    (∀ row, (generatePost registry userId w save).savedRow = some row →
      row.status = "draft") := by
  have hval := validateWorkflow_valid_iff registry w
  by_cases hv : (validateWorkflow registry w).valid = true
  · have he : (validateWorkflow registry w).errors = [] := hval.mp hv
    cases save <;>
      simp [generatePost, GenerateResponse.savedRow, hv, he]
  · have he : (validateWorkflow registry w).errors ≠ [] := fun h => hv (hval.mpr h)
    have hvf : (validateWorkflow registry w).valid = false := by
      cases hb : (validateWorkflow registry w).valid
      · rfl
      · exact absurd hb hv
    cases save <;>
      simp [generatePost, GenerateResponse.savedRow, hvf, he]

/-- C7 (witness): the theorem applied to the duplicate-`outputAs` workflow
(whose validation has no errors) with `saveImmediately = true`. -/
theorem c7_witness :
    ((generatePost demoRegistry "u1" wfDup true).savedRow ≠ none ↔
      ((validateWorkflow demoRegistry wfDup).errors = [] ∧ true = true)) ∧
    ((validateWorkflow demoRegistry wfDup).errors ≠ [] →
      generatePost demoRegistry "u1" wfDup true =
        .validationFailed wfDup (validateWorkflow demoRegistry wfDup)) ∧
    (∀ row, (generatePost demoRegistry "u1" wfDup true).savedRow = some row →
      row.status = "draft") :=
  c7_generate_saves_only_valid_drafts demoRegistry "u1" wfDup true

/-- A failed executor result, with the failing step recorded. -/
def failedRunResult : RunResult :=
  { success := false, error := some "boom", errorStep := some "s1" }

/-- C5 (counterexample): with the queue unavailable, a manual run whose
inline execution fails is answered by a 500 body that carries no `queued`
field at all — not `queued: false` as claimed. -/
theorem c5_counterexample :
    (runPost false (.ok (queueSubmitSpec "job-1")) (.ok failedRunResult)).inlineExecuted
        = true ∧
    (runPost false (.ok (queueSubmitSpec "job-1")) (.ok failedRunResult)).response.status
        = 500 ∧
    (runPost false (.ok (queueSubmitSpec "job-1")) (.ok failedRunResult)).response.body.queued
        = none := by
  exact ⟨rfl, rfl, rfl⟩

/-- C5 (amended): with the queue available the response carries the job id
and `queued: true` and nothing runs inline; with the queue unavailable the
workflow always runs inline, and the response carries `queued: false`
exactly when the inline run succeeds (the failure body omits the field). -/
theorem c5_amended_queue_or_inline (jobId : String)
    (qo : Except String (String × Bool)) (eo : Except String RunResult)
    (r : RunResult) :
    ((runPost true (.ok (queueSubmitSpec jobId)) eo).response.body.jobId = some jobId ∧
      (runPost true (.ok (queueSubmitSpec jobId)) eo).response.body.queued = some true ∧
      (runPost true (.ok (queueSubmitSpec jobId)) eo).inlineExecuted = false) ∧
    (runPost false qo eo).inlineExecuted = true ∧
    (runPost false qo (.ok r)).response.body.queued =
      (if r.success then some false else none) := by
  refine ⟨⟨rfl, rfl, rfl⟩, ?_, ?_⟩
  · cases eo with
    | ok rr => by_cases hs : rr.success = true <;> simp [runPost, hs]
    | error e => rfl
  · simp only [runPost]
    by_cases hr : r.success
    · simp [hr]
    · simp [hr]

/-- C6 (counterexample): when `executeWorkflow` throws, the `catch` block
answers 500 with only the error message: no `errorStep` accompanies it,
although the run failed. -/
theorem c6_counterexample :
    (runPost false (.ok (queueSubmitSpec "job-1")) (.error "boom")).response.status
        = 500 ∧
    (runPost false (.ok (queueSubmitSpec "job-1")) (.error "boom")).response.body.success
        = false ∧
    (runPost false (.ok (queueSubmitSpec "job-1")) (.error "boom")).response.body.error
        = some "boom" ∧
    (runPost false (.ok (queueSubmitSpec "job-1")) (.error "boom")).response.body.errorStep
        = none := by
  exact ⟨rfl, rfl, rfl, rfl⟩

/-- C6 (amended): when the inline executor returns an unsuccessful
`RunResult`, the 500 response carries that result's `error` and `errorStep`;
only the exception path loses `errorStep`. -/
theorem c6_amended_inline_failure_reports_errorStep
    (qo : Except String (String × Bool)) (r : RunResult)
    (hr : r.success = false) :
    (runPost false qo (.ok r)).response.status = 500 ∧
    (runPost false qo (.ok r)).response.body.error = r.error ∧
    (runPost false qo (.ok r)).response.body.errorStep = r.errorStep := by
  simp [runPost, hr]

/-- C6 (witness): the amended theorem applied to a concrete failed result. -/
theorem c6_witness :
    (runPost false (.ok (queueSubmitSpec "job-1")) (.ok failedRunResult)).response.status
        = 500 ∧
    (runPost false (.ok (queueSubmitSpec "job-1")) (.ok failedRunResult)).response.body.error
        = failedRunResult.error ∧
    (runPost false (.ok (queueSubmitSpec "job-1")) (.ok failedRunResult)).response.body.errorStep
        = failedRunResult.errorStep :=
  c6_amended_inline_failure_reports_errorStep (.ok (queueSubmitSpec "job-1"))
    failedRunResult rfl

/-- C4: the claim fails on the code: in the `services.leadconnectorhq.com`
GoHighLevel module, `updateContact` and `getContact` (and every export but
`createContact`) call `makeGHLRequest` directly with neither `withRateLimit`
nor a circuit breaker, and `apiRequest` of the `rest.gohighlevel.com` module
is likewise unwrapped. -/
theorem c4_unwrapped_ghl_exports :
    (⟨"updateContact", [.request]⟩ : GhlExport) ∈ ghlLeadConnectorExports ∧
    (⟨"getContact", [.request]⟩ : GhlExport) ∈ ghlLeadConnectorExports ∧
    fullyWrapped ⟨"updateContact", [.request]⟩ = false ∧
    fullyWrapped ⟨"getContact", [.request]⟩ = false ∧
    (⟨"apiRequest", [.request]⟩ : GhlExport) ∈ ghlRestExports ∧
    fullyWrapped ⟨"apiRequest", [.request]⟩ = false ∧
    ghlLeadConnectorExports.all fullyWrapped = false ∧
    (ghlLeadConnectorExports.filter fullyWrapped).map GhlExport.fname
        = ["createContact"] ∧
    (ghlRestExports.filter fun e => !(fullyWrapped e)).map GhlExport.fname
        = ["apiRequest"] := by
  refine ⟨?_, ?_, rfl, rfl, ?_, rfl, rfl, ?_, ?_⟩ <;> decide

end B0t

namespace B0t

/-- Failing calls issued at the very time the breaker opened leave it open
(they are rejected during a positive cooldown, and a zero cooldown's trial
fails back to the same timestamp). -/
theorem breakerRun_opened_fixed (cfg : BreakerConfig) (t : Nat) :
    ∀ (bs : List CallBehavior), (∀ b ∈ bs, b.isFailure = true) →
      breakerRun cfg (.opened t) (bs.map fun b => (t, b)) = .opened t := by
  intro bs
  induction bs with
  | nil => intro _; rfl
  | cons b tl ih =>
    intro h
    have hb := h b (by simp)
    have htl : ∀ x ∈ tl, x.isFailure = true := by
      intro x hx
      exact h x (by simp [hx])
    simp only [List.map_cons, breakerRun]
    have hcall : (breakerCall cfg (.opened t) t b).2 = .opened t := by
      simp only [breakerCall]
      by_cases hT : t < t + cfg.cooldownMs
      · simp [hT]
      · simp [hT, hb]
    rw [hcall]
    exact ih htl

/-- Running the breaker from a closed state through consecutive failures at
time `t`: it stays closed, counting, until the threshold is reached, and is
open (since `t`) from then on. -/
theorem breakerRun_fail_count (cfg : BreakerConfig) (t : Nat) :
    ∀ (bs : List CallBehavior) (f : Nat), (∀ b ∈ bs, b.isFailure = true) →
      breakerRun cfg (.closed f) (bs.map fun b => (t, b)) =
        if bs.length = 0 ∨ f + bs.length < cfg.failureThreshold then
          .closed (f + bs.length)
        else .opened t := by
  intro bs
  induction bs with
  | nil => intro f _; simp [breakerRun]
  | cons b tl ih =>
    intro f h
    have hb := h b (by simp)
    have htl : ∀ x ∈ tl, x.isFailure = true := by
      intro x hx
      exact h x (by simp [hx])
    simp only [List.map_cons, breakerRun, List.length_cons]
    by_cases hth : f + 1 ≥ cfg.failureThreshold
    · have hcall : (breakerCall cfg (.closed f) t b).2 = .opened t := by
        simp [breakerCall, hb, hth]
      rw [hcall, breakerRun_opened_fixed cfg t tl htl,
        if_neg (by push_neg; constructor <;> omega)]
    · have hcall : (breakerCall cfg (.closed f) t b).2 = .closed (f + 1) := by
        simp [breakerCall, hb, hth]
      rw [hcall, ih (f + 1) htl]
      by_cases h2 : f + 1 + tl.length < cfg.failureThreshold
      · rw [if_pos (Or.inr h2), if_pos (Or.inr (by omega))]
        congr 1
        omega
      · have hl : tl.length ≠ 0 := by omega
        rw [if_neg (by push_neg; exact ⟨hl, by omega⟩),
          if_neg (by push_neg; constructor <;> omega)]

/-- C8: starting closed, a run of `F` (or more) consecutive failures —
module errors and timeouts alike — at time `t` opens the breaker; while the
cooldown has not elapsed every call is rejected with `CircuitOpenError`
without invoking the body; once it has elapsed, the single trial call is
invoked: its success closes the breaker and resets the counter, its failure
(or timeout) reopens the breaker from the trial's time. -/
theorem c8_breaker_semantics (cfg : BreakerConfig) (bs : List CallBehavior)
    (t t1 t2 : Nat) (b : CallBehavior)
    (hne : bs ≠ [])
    (hfail : ∀ x ∈ bs, x.isFailure = true)
    (hlen : cfg.failureThreshold ≤ bs.length)
    (hcool : t1 < t + cfg.cooldownMs)
    (htrial : t + cfg.cooldownMs ≤ t2) :
    breakerRun cfg (.closed 0) (bs.map fun x => (t, x)) = .opened t ∧
    breakerCall cfg (.opened t) t1 b = (.circuitOpen, .opened t) ∧
    CallOutcome.circuitOpen.invoked = false ∧
    breakerCall cfg (.opened t) t2 .succeeds = (.ok, .closed 0) ∧
    breakerCall cfg (.opened t) t2 .fails = (.failed, .opened t2) ∧
    breakerCall cfg (.opened t) t2 .timesOut = (.timedOut, .opened t2) := by
  have hnot : ¬ (t2 < t + cfg.cooldownMs) := by omega
  have hpos : 0 < bs.length := List.length_pos.mpr hne
  refine ⟨?_, ?_, rfl, ?_, ?_, ?_⟩
  · rw [breakerRun_fail_count cfg t bs 0 hfail,
      if_neg (by push_neg; constructor <;> omega)]
  · simp [breakerCall, hcool]
  · simp [breakerCall, hnot, CallBehavior.isFailure, CallBehavior.outcome]
  · simp [breakerCall, hnot, CallBehavior.isFailure, CallBehavior.outcome]
  · simp [breakerCall, hnot, CallBehavior.isFailure, CallBehavior.outcome]

/-- C8 (witness): threshold 2, cooldown 10: a module error followed by a
timeout opens the breaker at time 0; the call at time 5 is rejected
unperformed; the trial at time 12 behaves as stated. -/
theorem c8_witness :
    breakerRun ⟨2, 10, 5000⟩ (.closed 0)
        ([CallBehavior.fails, CallBehavior.timesOut].map fun x => (0, x)) =
      .opened 0 ∧
    breakerCall ⟨2, 10, 5000⟩ (.opened 0) 5 .succeeds = (.circuitOpen, .opened 0) ∧
    CallOutcome.circuitOpen.invoked = false ∧
    breakerCall ⟨2, 10, 5000⟩ (.opened 0) 12 .succeeds = (.ok, .closed 0) ∧
    breakerCall ⟨2, 10, 5000⟩ (.opened 0) 12 .fails = (.failed, .opened 12) ∧
    breakerCall ⟨2, 10, 5000⟩ (.opened 0) 12 .timesOut = (.timedOut, .opened 12) :=
  c8_breaker_semantics ⟨2, 10, 5000⟩ [.fails, .timesOut] 0 5 12 .succeeds
    (by decide) (by decide) (by decide) (by decide) (by decide)

end B0t

namespace B0t

/-- `getPath` computes exactly the `PathLeadsTo` relation. -/
theorem getPath_eq_some_iff :
    ∀ (segs : List Seg) (v u : JValue),
      getPath v segs = some u ↔ PathLeadsTo v segs u := by
  intro segs
  induction segs with
  | nil =>
    intro v u
    constructor
    · intro h
      simp only [getPath, Option.some.injEq] at h
      subst h
      exact PathLeadsTo.nil v
    · intro h
      cases h
      cases v <;> rfl
  | cons s rest ih =>
    intro v u
    constructor
    · intro h
      cases s with
      | key k =>
        cases v with
        | obj fs =>
          simp only [getPath] at h
          cases hf : fs.lookup k with
          | none => rw [hf] at h; exact absurd h (by simp)
          | some w =>
            rw [hf] at h
            exact PathLeadsTo.key hf ((ih w u).mp h)
        | str s0 => exact absurd h (by simp [getPath])
        | num n => exact absurd h (by simp [getPath])
        | bool b0 => exact absurd h (by simp [getPath])
        | null => exact absurd h (by simp [getPath])
        | arr xs => exact absurd h (by simp [getPath])
      | idx i =>
        cases v with
        | arr xs =>
          simp only [getPath] at h
          cases hx : xs.get? i with
          | none => rw [hx] at h; exact absurd h (by simp)
          | some w =>
            rw [hx] at h
            exact PathLeadsTo.idx hx ((ih w u).mp h)
        | str s0 => exact absurd h (by simp [getPath])
        | num n => exact absurd h (by simp [getPath])
        | bool b0 => exact absurd h (by simp [getPath])
        | null => exact absurd h (by simp [getPath])
        | obj fs => exact absurd h (by simp [getPath])
    · intro h
      cases h with
      | key hf hrest =>
        simp only [getPath, hf]
        exact (ih _ u).mpr hrest
      | idx hx hrest =>
        simp only [getPath, hx]
        exact (ih _ u).mpr hrest

/-- C9: marker resolution is total and exact: it returns `.ok v` precisely
when the marker's path leads to `v` in the output bag, and otherwise — as
soon as any segment is missing — it returns `MissingVariableError` carrying
the full expression text and the referencing step's name; no third outcome
(an `undefined`-like value) exists. -/
theorem c9_resolve_exact_or_missing (bag : List (String × JValue))
    (stepName expr : String) (segs : List Seg) :
    (∀ v, resolveExpr bag stepName expr segs = .ok v ↔
      PathLeadsTo (.obj bag) segs v) ∧
    (resolveExpr bag stepName expr segs =
        .error { expression := expr, stepName := stepName } ↔
      ¬ ∃ v, PathLeadsTo (.obj bag) segs v) ∧
    ((∃ v, resolveExpr bag stepName expr segs = .ok v) ∨
      resolveExpr bag stepName expr segs =
        .error { expression := expr, stepName := stepName }) := by
  unfold resolveExpr
  cases hg : getPath (.obj bag) segs with
  | some v =>
    refine ⟨?_, ?_, Or.inl ⟨v, rfl⟩⟩
    · intro u
      constructor
      · intro h
        simp only [Except.ok.injEq] at h
        subst h
        exact (getPath_eq_some_iff segs _ v).mp hg
      · intro h
        have h2 := (getPath_eq_some_iff segs _ u).mpr h
        rw [hg] at h2
        simp only [Option.some.injEq] at h2
        subst h2
        rfl
    · constructor
      · intro h
        exact absurd h (by simp)
      · intro h
        exact absurd ⟨v, (getPath_eq_some_iff segs _ v).mp hg⟩ h
  | none =>
    refine ⟨?_, ?_, Or.inr rfl⟩
    · intro u
      constructor
      · intro h
        exact absurd h (by simp)
      · intro h
        have h2 := (getPath_eq_some_iff segs _ u).mpr h
        rw [hg] at h2
        exact absurd h2 (by simp)
    · constructor
      · rintro - ⟨v, hv⟩
        have h2 := (getPath_eq_some_iff segs _ v).mpr hv
        rw [hg] at h2
        exact absurd h2 (by simp)
      · intro _
        rfl

end B0t
